import Mathlib

/-
Verification of the cellular-automaton core of strategic_field_visualizer.py
(class StrategicAutomaton).

The Python class is shallowly embedded as follows: the grid (a square numpy
int array whose cells are always read through toroidal modular indexing) is a
total function from natural-number coordinates to integers; payoff
dictionaries are functions from key strings to rationals; Python float payoff
values are represented exactly as rationals; fallible construction
(ValueError) is Except String; the ambient numpy random stream used by the
random initial condition is passed in as an explicit Boolean stream, one draw
per cell (True picks the first element COOPERATE of the choice list).
Python's % on ints with a positive modulus agrees with Int.emod, and Python's
// agrees with Int.ediv for a positive divisor.
-/

namespace StrategicField

/-- Strategy label COOPERATE (source: class constant COOPERATE = 0). -/
def COOPERATE : ℤ := 0

/-- Strategy label DEFECT (source: class constant DEFECT = 1). -/
def DEFECT : ℤ := 1

/-- The automaton state: grid side length, game type string, payoff
dictionary, and the grid (source: fields set in StrategicAutomaton.__init__;
the colormap field is rendering-only and omitted). -/
structure StrategicAutomaton where
  grid_size : ℤ
  game_type : String
  payoffs : String → ℚ
  grid : ℕ → ℕ → ℤ

/-- Payoff dictionary for game type prisoner_clusters
(source: _get_payoffs, keys R, T, P, S with values 3, 3.1, 1, 0). -/
def pdPayoffs : String → ℚ := fun k =>
  if k = "R" then 3
  else if k = "T" then 31 / 10
  else if k = "P" then 1
  else if k = "S" then 0
  else 0

/-- Payoff dictionary for game type hawk_dove_spirals
(source: _get_payoffs, V = 3.5 and C = 4.5, keys V/2, V, 0, (V-C)/2). -/
def hdPayoffs : String → ℚ := fun k =>
  if k = "V/2" then 7 / 4
  else if k = "V" then 7 / 2
  else if k = "0" then 0
  else if k = "(V-C)/2" then -(1 / 2)
  else 0

/-- Payoff dictionary for game type stag_hunt
(source: _get_payoffs, keys Stag, Hare, Sucker, BothHare
with values 4, 2.5, 0, 1.5). -/
def shPayoffs : String → ℚ := fun k =>
  if k = "Stag" then 4
  else if k = "Hare" then 5 / 2
  else if k = "Sucker" then 0
  else if k = "BothHare" then 3 / 2
  else 0

/-- Source: StrategicAutomaton._get_payoffs.  Returns the payoff dictionary
for the given game type, or raises ValueError for any other name. -/
def getPayoffs (game_type : String) : Except String (String → ℚ) :=
  if game_type = "prisoner_clusters" then .ok pdPayoffs
  else if game_type = "hawk_dove_spirals" then .ok hdPayoffs
  else if game_type = "stag_hunt" then .ok shPayoffs
  else .error ("Invalid game type: " ++ game_type)

/-- The grid produced by the random initial condition
(source: np.random.choice of COOPERATE, DEFECT with p = density, 1 - density;
the ambient random stream is passed explicitly, True selecting COOPERATE). -/
def randomGrid (rng : ℕ → ℕ → Bool) : ℕ → ℕ → ℤ := fun y x =>
  if rng y x then COOPERATE else DEFECT

/-- The grid produced by the split initial condition
(source: np.zeros, then columns from grid_size // 2 onward set to DEFECT). -/
def splitGrid (N : ℤ) : ℕ → ℕ → ℤ := fun _y x =>
  if N / 2 ≤ (x : ℤ) then DEFECT else COOPERATE

/-- Normalization of a Python slice endpoint against length N
(negative endpoints have N added, then the result is clamped into 0..N),
as numpy basic slicing does for the invader block assignment. -/
def sliceNorm (v N : ℤ) : ℤ := min (max (if v < 0 then v + N else v) 0) N

/-- The grid produced by the invader initial condition
(source: np.full of COOPERATE, then the slice
grid from center - half_size to center + half_size + 1 in both axes
set to DEFECT, where center = grid_size // 2 and half_size = invader_size // 2). -/
def invaderGrid (N invader_size : ℤ) : ℕ → ℕ → ℤ := fun y x =>
  if sliceNorm (N / 2 - invader_size / 2) N ≤ (y : ℤ) ∧
      (y : ℤ) < sliceNorm (N / 2 + invader_size / 2 + 1) N ∧
      sliceNorm (N / 2 - invader_size / 2) N ≤ (x : ℤ) ∧
      (x : ℤ) < sliceNorm (N / 2 + invader_size / 2 + 1) N then DEFECT
  else COOPERATE

/-- The four hard-coded circular-patch centers of the clusters initial
condition (source: centers list in _initialize_grid). -/
def clusterCenters : List (ℤ × ℤ) := [(30, 30), (120, 40), (70, 100), (40, 120)]

/-- Offsets -8..8 scanned when stamping each circular patch
(source: range(-8, 9)). -/
def diskOffsets : List ℤ := (List.range 17).map (fun i => (i : ℤ) - 8)

/-- The grid produced by the clusters initial condition
(source: np.full of DEFECT, then every toroidally wrapped cell within squared
distance 64 of one of the four centers set to COOPERATE; all stamps write the
same value, so stamping order is irrelevant). -/
def clustersGrid (N : ℤ) : ℕ → ℕ → ℤ := fun y x =>
  if clusterCenters.any (fun c =>
      diskOffsets.any (fun dy => diskOffsets.any (fun dx =>
        decide (dy * dy + dx * dx ≤ 64) &&
        decide ((((c.1 + dy) % N)).toNat = y) &&
        decide ((((c.2 + dx) % N)).toNat = x))))
  then COOPERATE else DEFECT

/-- Source: StrategicAutomaton._initialize_grid.  Dispatches on the condition
name; unknown names raise ValueError.  Array-creating branches raise for a
negative grid size (numpy rejects negative dimensions); the clusters branch
additionally raises for size 0 (Python % 0 in the stamping loop). -/
def initGrid (N : ℤ) (condition : String) (density : ℚ) (invader_size : ℤ)
    (rng : ℕ → ℕ → Bool) : Except String (ℕ → ℕ → ℤ) :=
  if condition = "random" then
    if N < 0 then .error "negative dimensions are not allowed"
    else if 0 ≤ density ∧ density ≤ 1 then .ok (randomGrid rng)
    else .error "probabilities are not non-negative"
  else if condition = "split" then
    if N < 0 then .error "negative dimensions are not allowed"
    else .ok (splitGrid N)
  else if condition = "invader" then
    if N < 0 then .error "negative dimensions are not allowed"
    else .ok (invaderGrid N invader_size)
  else if condition = "clusters" then
    if N < 0 then .error "negative dimensions are not allowed"
    else if N = 0 then .error "integer division or modulo by zero"
    else .ok (clustersGrid N)
  else .error ("Invalid initial condition: " ++ condition)

/-- Source: StrategicAutomaton.__init__.  The payoff table is computed first
(_get_payoffs), then the grid (_initialize_grid); either failure aborts
construction, so a failed construction installs no grid. -/
def mkAutomaton (grid_size : ℤ) (game_type condition : String)
    (density : ℚ) (invader_size : ℤ) (rng : ℕ → ℕ → Bool) :
    Except String StrategicAutomaton :=
  match getPayoffs game_type with
  | .error msg => .error msg
  | .ok payoffs =>
    match initGrid grid_size condition density invader_size rng with
    | .error msg => .error msg
    | .ok grid => .ok ⟨grid_size, game_type, payoffs, grid⟩

/-- Substring test, as Python's in operator on strings
(source: the game-type dispatch in _get_fitness). -/
def strContainsSub (s sub : String) : Bool :=
  (List.range (s.length + 1)).any (fun i => sub.data.isPrefixOf (s.data.drop i))

/-- The payoff one interaction contributes to a cell's score
(source: the body of the neighbor loop in _get_fitness: dispatch on the
game-type string, then on (my_strategy, neighbor_strategy); if no game-type
branch matches, the loop adds nothing). -/
def interactionPayoff (game_type : String) (p : String → ℚ)
    (my_strategy neighbor_strategy : ℤ) : ℚ :=
  if strContainsSub game_type "prisoner" then
    if my_strategy = COOPERATE then
      if neighbor_strategy = COOPERATE then p "R" else p "S"
    else
      if neighbor_strategy = COOPERATE then p "T" else p "P"
  else if strContainsSub game_type "hawk_dove" then
    if my_strategy = COOPERATE then
      if neighbor_strategy = COOPERATE then p "V/2" else p "0"
    else
      if neighbor_strategy = COOPERATE then p "V" else p "(V-C)/2"
  else if strContainsSub game_type "stag_hunt" then
    if my_strategy = COOPERATE then
      if neighbor_strategy = COOPERATE then p "Stag" else p "Sucker"
    else
      if neighbor_strategy = COOPERATE then p "Hare" else p "BothHare"
  else 0

/-- Toroidal index arithmetic (source: (y + dy) % self.grid_size; Python %
with a positive modulus agrees with Int.emod). -/
def wrapIdx (N : ℤ) (i : ℕ) (d : ℤ) : ℕ := (((i : ℤ) + d) % N).toNat

/-- The offset values -1, 0, 1 of the source's nested neighbor loops. -/
def offsetList : List ℤ := [-1, 0, 1]

/-- Source: StrategicAutomaton._get_fitness.  Accumulates, over the nested
dy and dx loops (skipping dy = dx = 0 via continue), the interaction payoff
with the toroidally wrapped neighbor, starting from score 0. -/
def getFitness (a : StrategicAutomaton) (y x : ℕ) (current_grid : ℕ → ℕ → ℤ) : ℚ :=
  let my_strategy := current_grid y x
  offsetList.foldl (fun score dy =>
    offsetList.foldl (fun score dx =>
      if dy = 0 ∧ dx = 0 then score
      else score + interactionPayoff a.game_type a.payoffs my_strategy
        (current_grid (wrapIdx a.grid_size y dy) (wrapIdx a.grid_size x dx)))
      score) 0

/-- The 9 (dy, dx) offsets of the update scan, in the source's loop order:
row offset -1, 0, 1 outer, column offset -1, 0, 1 inner, self included. -/
def offsetPairs : List (ℤ × ℤ) :=
  [(-1, -1), (-1, 0), (-1, 1), (0, -1), (0, 0), (0, 1), (1, -1), (1, 0), (1, 1)]

/-- The 9 candidate positions examined when updating cell (y, x), in scan
order (source: the inner loops of StrategicAutomaton.step). -/
def candidates (N : ℤ) (y x : ℕ) : List (ℕ × ℕ) :=
  offsetPairs.map (fun d => (wrapIdx N y d.1, wrapIdx N x d.2))

/-- Comparison of a candidate fitness against the running maximum, which
starts at -np.inf (modelled by none): any rational beats none
(source: fitness_grid[ny, nx] > max_fitness in step). -/
def better (f : ℚ) : Option ℚ → Bool
  | none => true
  | some m => decide (m < f)

/-- One iteration of the candidate scan of step: a strictly greater fitness
replaces the running (max_fitness, best_strategy) pair. -/
def bestStep {α : Type} (F : α → ℚ) (strat : α → ℤ) (acc : Option ℚ × ℤ) (p : α) :
    Option ℚ × ℤ :=
  if better (F p) acc.1 then (some (F p), strat p) else acc

/-- The candidate scan of step: fold the comparison over the candidate list,
starting from max_fitness = -np.inf and best_strategy = -1, and return the
final best_strategy. -/
def bestOf {α : Type} (F : α → ℚ) (strat : α → ℤ) (l : List α) : ℤ :=
  (l.foldl (bestStep F strat) ((none : Option ℚ), (-1 : ℤ))).2

/-- Source: StrategicAutomaton.step.  The fitness grid is computed once from
the current grid; then every in-range cell adopts the old-grid strategy of
its best-fitness candidate (next_grid starts as a copy of the grid, and the
loops overwrite exactly the in-range cells); finally the grid is replaced. -/
def step (a : StrategicAutomaton) : StrategicAutomaton :=
  let fitness_grid : ℕ → ℕ → ℚ := fun y x => getFitness a y x a.grid
  let next_grid : ℕ → ℕ → ℤ := fun y x =>
    if (y : ℤ) < a.grid_size ∧ (x : ℤ) < a.grid_size then
      bestOf (fun pos => fitness_grid pos.1 pos.2) (fun pos => a.grid pos.1 pos.2)
        (candidates a.grid_size y x)
    else a.grid y x
  ⟨a.grid_size, a.game_type, a.payoffs, next_grid⟩

/-- k successive generation updates (the spec's advance() is the source's
step(); the caller loop applies it repeatedly). -/
def stepK : ℕ → StrategicAutomaton → StrategicAutomaton
  | 0, a => a
  | k + 1, a => stepK k (step a)

/-- Whether an Except result is a success (construction did not raise). -/
def isOkB {ε α : Type} : Except ε α → Bool
  | .ok _ => true
  | .error _ => false

/-- A fixed random stream for concrete instantiations. -/
def rngFalse : ℕ → ℕ → Bool := fun _ _ => false

/-- Number of DEFECT cells among the n by n in-range cells of a grid. -/
def defectCount (g : ℕ → ℕ → ℤ) (n : ℕ) : ℕ :=
  ((Finset.range n) ×ˢ (Finset.range n)).filter (fun q => g q.1 q.2 = DEFECT) |>.card

/-- Invariant of the running-maximum fold of step, seeded with a finite
maximum m and strategy s: either no candidate strictly exceeds m and the
accumulator is unchanged, or the fold returns the first candidate that
attains the maximum, which strictly exceeds m and every earlier candidate. -/
lemma bestFold_gen {α : Type} (F : α → ℚ) (strat : α → ℤ) (l : List α) :
    ∀ (m : ℚ) (s : ℤ),
      (List.foldl (bestStep F strat) ((some m : Option ℚ), s) l = (some m, s) ∧
        ∀ j (hj : j < l.length), F (l.get ⟨j, hj⟩) ≤ m) ∨
      (∃ i, ∃ hi : i < l.length,
        List.foldl (bestStep F strat) ((some m : Option ℚ), s) l
          = (some (F (l.get ⟨i, hi⟩)), strat (l.get ⟨i, hi⟩)) ∧
        m < F (l.get ⟨i, hi⟩) ∧
        (∀ j (hj : j < l.length), F (l.get ⟨j, hj⟩) ≤ F (l.get ⟨i, hi⟩)) ∧
        (∀ j (hj : j < l.length), j < i → F (l.get ⟨j, hj⟩) < F (l.get ⟨i, hi⟩))) := by
  induction l with
  | nil =>
    intro m s
    left
    exact ⟨rfl, fun j hj => absurd hj (Nat.not_lt_zero j)⟩
  | cons p ps ih =>
    intro m s
    rw [List.foldl_cons]
    by_cases h : m < F p
    · have hb : bestStep F strat ((some m : Option ℚ), s) p = (some (F p), strat p) := by
        simp [bestStep, better, h]
      rw [hb]
      rcases ih (F p) (strat p) with ⟨heq, hle⟩ | ⟨i, hi, heq, hlt, hle, hst⟩
      · right
        refine ⟨0, Nat.succ_pos _, heq, h, ?_, ?_⟩
        · intro j hj
          cases j with
          | zero => exact le_refl _
          | succ j2 => exact hle j2 (Nat.lt_of_succ_lt_succ hj)
        · intro j hj hji
          exact absurd hji (Nat.not_lt_zero j)
      · right
        refine ⟨i + 1, Nat.succ_lt_succ hi, heq, lt_trans h hlt, ?_, ?_⟩
        · intro j hj
          cases j with
          | zero => exact le_of_lt hlt
          | succ j2 => exact hle j2 (Nat.lt_of_succ_lt_succ hj)
        · intro j hj hji
          cases j with
          | zero => exact hlt
          | succ j2 => exact hst j2 (Nat.lt_of_succ_lt_succ hj) (Nat.lt_of_succ_lt_succ hji)
    · have hb : bestStep F strat ((some m : Option ℚ), s) p = (some m, s) := by
        simp [bestStep, better, h]
      rw [hb]
      rcases ih m s with ⟨heq, hle⟩ | ⟨i, hi, heq, hlt, hle, hst⟩
      · left
        refine ⟨heq, ?_⟩
        intro j hj
        cases j with
        | zero => exact not_lt.mp h
        | succ j2 => exact hle j2 (Nat.lt_of_succ_lt_succ hj)
      · right
        refine ⟨i + 1, Nat.succ_lt_succ hi, heq, hlt, ?_, ?_⟩
        · intro j hj
          cases j with
          | zero => exact le_trans (not_lt.mp h) (le_of_lt hlt)
          | succ j2 => exact hle j2 (Nat.lt_of_succ_lt_succ hj)
        · intro j hj hji
          cases j with
          | zero => exact lt_of_le_of_lt (not_lt.mp h) hlt
          | succ j2 => exact hst j2 (Nat.lt_of_succ_lt_succ hj) (Nat.lt_of_succ_lt_succ hji)

/-- On a nonempty candidate list, the scan of step selects the first
candidate attaining the maximum fitness: its fitness is at least every
candidate's and strictly above every earlier candidate's, and the returned
strategy (the -1 seed never survives) is that candidate's. -/
lemma bestOf_cons_spec {α : Type} (F : α → ℚ) (strat : α → ℤ) (p : α) (ps : List α) :
    ∃ i, ∃ hi : i < (p :: ps).length,
      bestOf F strat (p :: ps) = strat ((p :: ps).get ⟨i, hi⟩) ∧
      (∀ j (hj : j < (p :: ps).length),
        F ((p :: ps).get ⟨j, hj⟩) ≤ F ((p :: ps).get ⟨i, hi⟩)) ∧
      (∀ j (hj : j < (p :: ps).length), j < i →
        F ((p :: ps).get ⟨j, hj⟩) < F ((p :: ps).get ⟨i, hi⟩)) := by
  unfold bestOf
  rw [List.foldl_cons]
  have hb : bestStep F strat ((none : Option ℚ), (-1 : ℤ)) p = (some (F p), strat p) := by
    simp [bestStep, better]
  rw [hb]
  rcases bestFold_gen F strat ps (F p) (strat p) with ⟨heq, hle⟩ | ⟨i, hi, heq, hlt, hle, hst⟩
  · refine ⟨0, Nat.succ_pos _, by rw [heq]; rfl, ?_, ?_⟩
    · intro j hj
      cases j with
      | zero => exact le_refl _
      | succ j2 => exact hle j2 (Nat.lt_of_succ_lt_succ hj)
    · intro j hj hji
      exact absurd hji (Nat.not_lt_zero j)
  · refine ⟨i + 1, Nat.succ_lt_succ hi, by rw [heq]; rfl, ?_, ?_⟩
    · intro j hj
      cases j with
      | zero => exact le_of_lt hlt
      | succ j2 => exact hle j2 (Nat.lt_of_succ_lt_succ hj)
    · intro j hj hji
      cases j with
      | zero => exact hlt
      | succ j2 => exact hst j2 (Nat.lt_of_succ_lt_succ hj) (Nat.lt_of_succ_lt_succ hji)

/-- A successful construction decomposes into a successful payoff lookup and
a successful grid initialization, and the engine is exactly the record built
from them. -/
lemma mk_ok_elim {N : ℤ} {gt ic : String} {d : ℚ} {sz : ℤ} {rng : ℕ → ℕ → Bool}
    {e : StrategicAutomaton}
    (hmk : mkAutomaton N gt ic d sz rng = .ok e) :
    ∃ p g, getPayoffs gt = .ok p ∧ initGrid N ic d sz rng = .ok g ∧
      e = ⟨N, gt, p, g⟩ := by
  unfold mkAutomaton at hmk
  split at hmk
  · exact absurd hmk (by simp)
  · rename_i p hp
    split at hmk
    · exact absurd hmk (by simp)
    · rename_i g hg
      refine ⟨p, g, hp, hg, ?_⟩
      injection hmk with h
      exact h.symm

/-- Toroidal indexing lands inside the grid when the side length is positive. -/
lemma wrapIdx_lt {N : ℤ} (hN : 0 < N) (i : ℕ) (d : ℤ) :
    ((wrapIdx N i d : ℕ) : ℤ) < N := by
  unfold wrapIdx
  rw [Int.toNat_of_nonneg (Int.emod_nonneg _ (ne_of_gt hN))]
  exact Int.emod_lt_of_pos _ hN

/-- For an in-range cell, one step writes the result of the candidate scan
run on the fitness field of the pre-step grid. -/
lemma step_grid_in (a : StrategicAutomaton) (y x : ℕ)
    (hy : (y : ℤ) < a.grid_size) (hx : (x : ℤ) < a.grid_size) :
    (step a).grid y x
      = bestOf (fun pos => getFitness a pos.1 pos.2 a.grid)
        (fun pos => a.grid pos.1 pos.2) (candidates a.grid_size y x) := by
  unfold step
  simp [hy, hx]

/-- C1 (confirmed): for every validly-constructed engine with grid side
N >= 1 and every in-range cell (y, x), the post-step strategy of (y, x) is
the pre-step-grid strategy of a candidate, in the scan order of candidates
(row offset -1, 0, 1 outer, column offset -1, 0, 1 inner, self included),
whose fitness — computed by getFitness from the single pre-step grid, the
synchronous snapshot — is greatest among all 9 candidates and strictly
greater than every earlier-scanned candidate's fitness (first-encountered
wins among ties). -/
theorem C1_best_takes_over (N : ℤ) (gt ic : String) (d : ℚ) (sz : ℤ)
    (rng : ℕ → ℕ → Bool) (e : StrategicAutomaton)
    (hmk : mkAutomaton N gt ic d sz rng = .ok e) (_hN : 1 ≤ N)
    (y x : ℕ) (hy : (y : ℤ) < N) (hx : (x : ℤ) < N) :
    ∃ i, ∃ hi : i < (candidates N y x).length,
      (step e).grid y x
        = e.grid ((candidates N y x).get ⟨i, hi⟩).1 ((candidates N y x).get ⟨i, hi⟩).2 ∧
      (∀ j (hj : j < (candidates N y x).length),
        getFitness e ((candidates N y x).get ⟨j, hj⟩).1
            ((candidates N y x).get ⟨j, hj⟩).2 e.grid
          ≤ getFitness e ((candidates N y x).get ⟨i, hi⟩).1
            ((candidates N y x).get ⟨i, hi⟩).2 e.grid) ∧
      (∀ j (hj : j < (candidates N y x).length), j < i →
        getFitness e ((candidates N y x).get ⟨j, hj⟩).1
            ((candidates N y x).get ⟨j, hj⟩).2 e.grid
          < getFitness e ((candidates N y x).get ⟨i, hi⟩).1
            ((candidates N y x).get ⟨i, hi⟩).2 e.grid) := by
  obtain ⟨p, g, hp, hg, he⟩ := mk_ok_elim hmk
  subst he
  rw [step_grid_in _ y x hy hx]
  exact bestOf_cons_spec _ _ _ _

/-- Concrete split-initialized engine of side 2, used to instantiate
construction-based theorems. -/
def splitEngine2 : StrategicAutomaton := ⟨2, "prisoner_clusters", pdPayoffs, splitGrid 2⟩

/-- Witness for C1: the theorem applied to a concretely constructed engine
of side 2 at cell (0, 1). -/
theorem C1_best_takes_over_witness :
    ∃ i, ∃ hi : i < (candidates 2 0 1).length,
      (step splitEngine2).grid 0 1
        = splitEngine2.grid ((candidates 2 0 1).get ⟨i, hi⟩).1
            ((candidates 2 0 1).get ⟨i, hi⟩).2 ∧
      (∀ j (hj : j < (candidates 2 0 1).length),
        getFitness splitEngine2 ((candidates 2 0 1).get ⟨j, hj⟩).1
            ((candidates 2 0 1).get ⟨j, hj⟩).2 splitEngine2.grid
          ≤ getFitness splitEngine2 ((candidates 2 0 1).get ⟨i, hi⟩).1
            ((candidates 2 0 1).get ⟨i, hi⟩).2 splitEngine2.grid) ∧
      (∀ j (hj : j < (candidates 2 0 1).length), j < i →
        getFitness splitEngine2 ((candidates 2 0 1).get ⟨j, hj⟩).1
            ((candidates 2 0 1).get ⟨j, hj⟩).2 splitEngine2.grid
          < getFitness splitEngine2 ((candidates 2 0 1).get ⟨i, hi⟩).1
            ((candidates 2 0 1).get ⟨i, hi⟩).2 splitEngine2.grid) :=
  C1_best_takes_over 2 "prisoner_clusters" "split" 0 5 rngFalse splitEngine2
    rfl (by decide) 0 1 (by decide) (by decide)

/-- The 8 neighbor offsets (dy, dx) in the order the fitness loops visit
them; (0, 0) is excluded by the continue in the source. -/
def neighborOffsets : List (ℤ × ℤ) :=
  [(-1, -1), (-1, 0), (-1, 1), (0, -1), (0, 1), (1, -1), (1, 0), (1, 1)]

/-- C2 (confirmed): the fitness of cell (y, x) is the sum, over the 8
neighbor offsets, of the payoff term selected by (this cell's strategy,
neighbor's strategy) at the toroidally wrapped positions; and for a grid of
side 5 the fitness of cell (0, 0) reads exactly the neighbors
(4,4), (4,0), (4,1), (0,4), (0,1), (1,4), (1,0), (1,1).  The computation is a
function of the grid snapshot argument alone. -/
theorem C2_fitness_sum (a : StrategicAutomaton) (g : ℕ → ℕ → ℤ) (y x : ℕ) :
    (getFitness a y x g =
      (neighborOffsets.map (fun dd =>
        interactionPayoff a.game_type a.payoffs (g y x)
          (g (wrapIdx a.grid_size y dd.1) (wrapIdx a.grid_size x dd.2)))).sum) ∧
    (a.grid_size = 5 →
      getFitness a 0 0 g
        = interactionPayoff a.game_type a.payoffs (g 0 0) (g 4 4)
        + interactionPayoff a.game_type a.payoffs (g 0 0) (g 4 0)
        + interactionPayoff a.game_type a.payoffs (g 0 0) (g 4 1)
        + interactionPayoff a.game_type a.payoffs (g 0 0) (g 0 4)
        + interactionPayoff a.game_type a.payoffs (g 0 0) (g 0 1)
        + interactionPayoff a.game_type a.payoffs (g 0 0) (g 1 4)
        + interactionPayoff a.game_type a.payoffs (g 0 0) (g 1 0)
        + interactionPayoff a.game_type a.payoffs (g 0 0) (g 1 1)) := by
  constructor
  · simp [getFitness, neighborOffsets, offsetList]
    ring
  · intro h5
    have hw : ∀ (i : ℕ) (dd : ℤ), wrapIdx a.grid_size i dd = wrapIdx 5 i dd := by
      intro i dd; rw [h5]
    simp only [getFitness, offsetList, List.foldl_cons, List.foldl_nil, hw]
    norm_num [wrapIdx]
    have ht : (4 : ℤ).toNat = (4 : ℕ) := rfl
    rw [ht]

/-- An engine of side 5 over a concrete grid, for fitness instantiations. -/
def fitEngine5 : StrategicAutomaton := ⟨5, "stag_hunt", shPayoffs, splitGrid 5⟩

/-- Witness for C2: the side-5 toroidal neighbor set of cell (0, 0),
instantiated on a concrete engine and grid. -/
theorem C2_fitness_sum_witness :
    getFitness fitEngine5 0 0 (splitGrid 5)
      = interactionPayoff fitEngine5.game_type fitEngine5.payoffs (splitGrid 5 0 0) (splitGrid 5 4 4)
      + interactionPayoff fitEngine5.game_type fitEngine5.payoffs (splitGrid 5 0 0) (splitGrid 5 4 0)
      + interactionPayoff fitEngine5.game_type fitEngine5.payoffs (splitGrid 5 0 0) (splitGrid 5 4 1)
      + interactionPayoff fitEngine5.game_type fitEngine5.payoffs (splitGrid 5 0 0) (splitGrid 5 0 4)
      + interactionPayoff fitEngine5.game_type fitEngine5.payoffs (splitGrid 5 0 0) (splitGrid 5 0 1)
      + interactionPayoff fitEngine5.game_type fitEngine5.payoffs (splitGrid 5 0 0) (splitGrid 5 1 4)
      + interactionPayoff fitEngine5.game_type fitEngine5.payoffs (splitGrid 5 0 0) (splitGrid 5 1 0)
      + interactionPayoff fitEngine5.game_type fitEngine5.payoffs (splitGrid 5 0 0) (splitGrid 5 1 1) :=
  (C2_fitness_sum fitEngine5 (splitGrid 5) 0 0).2 rfl

/-- For an out-of-range position, one step keeps the copied old value
(next_grid starts as grid.copy() and the loops only overwrite in-range
cells). -/
lemma step_grid_out (a : StrategicAutomaton) (y x : ℕ)
    (h : ¬((y : ℤ) < a.grid_size ∧ (x : ℤ) < a.grid_size)) :
    (step a).grid y x = a.grid y x := by
  unfold step
  simp [h]

/-- Every grid a successful initialization returns holds only the two
strategy labels. -/
lemma grid01_of_initGrid {N : ℤ} {ic : String} {d : ℚ} {sz : ℤ}
    {rng : ℕ → ℕ → Bool} {g : ℕ → ℕ → ℤ}
    (hg : initGrid N ic d sz rng = .ok g) :
    ∀ y x : ℕ, g y x = COOPERATE ∨ g y x = DEFECT := by
  unfold initGrid at hg
  split_ifs at hg
  all_goals first
    | exact Except.noConfusion hg
    | · injection hg with h
        subst h
        intro y x
        simp only [randomGrid, splitGrid, invaderGrid, clustersGrid]
        split_ifs <;> simp

/-- The candidate scan over the 9 candidates of a cell always returns the
old-grid strategy of one of the candidate positions. -/
lemma bestOf_candidates_eq_strat (F : ℕ × ℕ → ℚ) (strat : ℕ × ℕ → ℤ)
    (N : ℤ) (y x : ℕ) :
    ∃ q : ℕ × ℕ, bestOf F strat (candidates N y x) = strat q := by
  have h : candidates N y x
      = (wrapIdx N y (-1), wrapIdx N x (-1)) ::
        [(wrapIdx N y (-1), wrapIdx N x 0), (wrapIdx N y (-1), wrapIdx N x 1),
         (wrapIdx N y 0, wrapIdx N x (-1)), (wrapIdx N y 0, wrapIdx N x 0),
         (wrapIdx N y 0, wrapIdx N x 1), (wrapIdx N y 1, wrapIdx N x (-1)),
         (wrapIdx N y 1, wrapIdx N x 0), (wrapIdx N y 1, wrapIdx N x 1)] := rfl
  rw [h]
  obtain ⟨i, hi, heq, -, -⟩ := bestOf_cons_spec F strat _ _
  exact ⟨_, heq⟩

/-- One step preserves the two-valuedness of every cell. -/
lemma step_grid01 (a : StrategicAutomaton)
    (h : ∀ y x : ℕ, a.grid y x = COOPERATE ∨ a.grid y x = DEFECT) :
    ∀ y x : ℕ, (step a).grid y x = COOPERATE ∨ (step a).grid y x = DEFECT := by
  intro y x
  by_cases hin : (y : ℤ) < a.grid_size ∧ (x : ℤ) < a.grid_size
  · rw [step_grid_in a y x hin.1 hin.2]
    obtain ⟨q, hq⟩ := bestOf_candidates_eq_strat
      (fun pos => getFitness a pos.1 pos.2 a.grid)
      (fun pos => a.grid pos.1 pos.2) a.grid_size y x
    rw [hq]
    exact h q.1 q.2
  · rw [step_grid_out a y x hin]
    exact h y x

/-- Iterated stepping preserves two-valuedness. -/
lemma stepK_grid01 (k : ℕ) : ∀ a : StrategicAutomaton,
    (∀ y x : ℕ, a.grid y x = COOPERATE ∨ a.grid y x = DEFECT) →
    ∀ y x : ℕ, (stepK k a).grid y x = COOPERATE ∨ (stepK k a).grid y x = DEFECT := by
  induction k with
  | zero => exact fun a h => h
  | succ k2 ih => exact fun a h => ih (step a) (step_grid01 a h)

/-- Stepping never changes the stored grid side length. -/
lemma stepK_size (k : ℕ) : ∀ a : StrategicAutomaton,
    (stepK k a).grid_size = a.grid_size := by
  induction k with
  | zero => exact fun a => rfl
  | succ k2 ih => exact fun a => ih (step a)

/-- C3 (confirmed): for every validly-constructed engine of side N >= 1,
every number k of advance() calls and every cell, the cell holds COOPERATE
or DEFECT, and the stored side length is still N (the grid stays the square
N-by-N array for the lifetime of the engine). -/
theorem C3_closure (N : ℤ) (gt ic : String) (d : ℚ) (sz : ℤ)
    (rng : ℕ → ℕ → Bool) (e : StrategicAutomaton)
    (hmk : mkAutomaton N gt ic d sz rng = .ok e) (_hN : 1 ≤ N) (k y x : ℕ) :
    (stepK k e).grid_size = N ∧
      ((stepK k e).grid y x = COOPERATE ∨ (stepK k e).grid y x = DEFECT) := by
  obtain ⟨p, g, hp, hg, he⟩ := mk_ok_elim hmk
  subst he
  exact ⟨stepK_size k _, stepK_grid01 k _ (grid01_of_initGrid hg) y x⟩

/-- Witness for C3: the concretely constructed side-2 split engine after two
generations, at cell (0, 1). -/
theorem C3_closure_witness :
    (stepK 2 splitEngine2).grid_size = 2 ∧
      ((stepK 2 splitEngine2).grid 0 1 = COOPERATE ∨
        (stepK 2 splitEngine2).grid 0 1 = DEFECT) :=
  C3_closure 2 "prisoner_clusters" "split" 0 5 rngFalse splitEngine2 rfl
    (by decide) 2 0 1

/-- On a grid that is uniform on all in-range cells, the fitness of every
in-range cell is 8 times the payoff of the shared strategy against itself. -/
lemma getFitness_uniform (a : StrategicAutomaton) (s : ℤ) (hN : 0 < a.grid_size)
    (hu : ∀ u v : ℕ, (u : ℤ) < a.grid_size → (v : ℤ) < a.grid_size → a.grid u v = s)
    (y x : ℕ) (hy : (y : ℤ) < a.grid_size) (hx : (x : ℤ) < a.grid_size) :
    getFitness a y x a.grid = 8 * interactionPayoff a.game_type a.payoffs s s := by
  have hr : ∀ (i j : ℕ) (di dj : ℤ),
      a.grid (wrapIdx a.grid_size i di) (wrapIdx a.grid_size j dj) = s :=
    fun i j di dj => hu _ _ (wrapIdx_lt hN i di) (wrapIdx_lt hN j dj)
  simp [getFitness, offsetList, hr, hu y x hy hx]
  ring

/-- On a uniform grid, the scan writes the shared strategy into every
in-range cell (every candidate has the same fitness, so the first candidate
wins, and its strategy is the uniform one). -/
lemma step_uniform (a : StrategicAutomaton) (s : ℤ) (hN : 0 < a.grid_size)
    (hu : ∀ u v : ℕ, (u : ℤ) < a.grid_size → (v : ℤ) < a.grid_size → a.grid u v = s)
    (y x : ℕ) (hy : (y : ℤ) < a.grid_size) (hx : (x : ℤ) < a.grid_size) :
    (step a).grid y x = s := by
  rw [step_grid_in a y x hy hx]
  have hF : ∀ dy dx : ℤ,
      getFitness a (wrapIdx a.grid_size y dy) (wrapIdx a.grid_size x dx) a.grid
        = 8 * interactionPayoff a.game_type a.payoffs s s :=
    fun dy dx => getFitness_uniform a s hN hu _ _
      (wrapIdx_lt hN y dy) (wrapIdx_lt hN x dx)
  have hS : ∀ dy dx : ℤ,
      a.grid (wrapIdx a.grid_size y dy) (wrapIdx a.grid_size x dx) = s :=
    fun dy dx => hu _ _ (wrapIdx_lt hN y dy) (wrapIdx_lt hN x dx)
  simp [bestOf, candidates, offsetPairs, bestStep, better, hF, hS,
    lt_self_iff_false]

/-- C4 (confirmed): for every engine of side N >= 1 holding the same
strategy (COOPERATE or DEFECT) in every in-range cell, one advance() leaves
every cell of the grid unchanged. -/
theorem C4_uniform_fixed_point (e : StrategicAutomaton) (s : ℤ)
    (hN : 1 ≤ e.grid_size) (_hs : s = COOPERATE ∨ s = DEFECT)
    (hu : ∀ u v : ℕ, (u : ℤ) < e.grid_size → (v : ℤ) < e.grid_size → e.grid u v = s)
    (y x : ℕ) : (step e).grid y x = e.grid y x := by
  by_cases hin : (y : ℤ) < e.grid_size ∧ (x : ℤ) < e.grid_size
  · rw [step_uniform e s hN hu y x hin.1 hin.2, hu y x hin.1 hin.2]
  · exact step_grid_out e y x hin

/-- A uniform all-COOPERATE engine of side 3 for instantiations. -/
def uniformEngine3 : StrategicAutomaton :=
  ⟨3, "stag_hunt", shPayoffs, fun _ _ => COOPERATE⟩

/-- Witness for C4: the uniform side-3 engine is unchanged at cell (1, 2)
by one step. -/
theorem C4_uniform_fixed_point_witness :
    (step uniformEngine3).grid 1 2 = uniformEngine3.grid 1 2 :=
  C4_uniform_fixed_point uniformEngine3 COOPERATE (by decide) (Or.inl rfl)
    (fun _ _ _ _ => rfl) 1 2

/-- A successful split initialization returns exactly the split grid. -/
lemma initGrid_split_ok {N : ℤ} {d : ℚ} {sz : ℤ} {rng : ℕ → ℕ → Bool}
    {g : ℕ → ℕ → ℤ} (hg : initGrid N "split" d sz rng = .ok g) :
    g = splitGrid N := by
  unfold initGrid at hg
  rw [if_neg (by decide), if_pos rfl] at hg
  split_ifs at hg
  exact (Except.ok.inj hg).symm

/-- C5 (confirmed): a construction with the split initial condition sets
every cell in a column left of N / 2 (integer division) to COOPERATE and
every cell in a column at or right of N / 2 to DEFECT, with all rows
identical. -/
theorem C5_split_init (N : ℤ) (gt : String) (d : ℚ) (sz : ℤ)
    (rng : ℕ → ℕ → Bool) (e : StrategicAutomaton)
    (hmk : mkAutomaton N gt "split" d sz rng = .ok e) (y x : ℕ) :
    ((x : ℤ) < N / 2 → e.grid y x = COOPERATE) ∧
    (N / 2 ≤ (x : ℤ) → e.grid y x = DEFECT) ∧
    (∀ y2 : ℕ, e.grid y x = e.grid y2 x) := by
  obtain ⟨p, g, hp, hg, he⟩ := mk_ok_elim hmk
  have hgs := initGrid_split_ok hg
  subst hgs he
  refine ⟨?_, ?_, fun y2 => rfl⟩
  · intro hlt
    show splitGrid N y x = COOPERATE
    unfold splitGrid
    rw [if_neg (not_le.mpr hlt)]
  · intro hge
    show splitGrid N y x = DEFECT
    unfold splitGrid
    rw [if_pos hge]

/-- Concrete split-initialized engine of side 10. -/
def splitEngine10 : StrategicAutomaton :=
  ⟨10, "prisoner_clusters", pdPayoffs, splitGrid 10⟩

/-- Witness for C5: for N = 10, column 4 is COOPERATE and column 5 is
DEFECT on the concretely constructed engine. -/
theorem C5_split_init_witness :
    splitEngine10.grid 3 4 = COOPERATE ∧ splitEngine10.grid 3 5 = DEFECT :=
  ⟨(C5_split_init 10 "prisoner_clusters" 0 5 rngFalse splitEngine10 rfl 3 4).1
      (by decide),
   (C5_split_init 10 "prisoner_clusters" 0 5 rngFalse splitEngine10 rfl 3 5).2.1
      (by decide)⟩

/-- A successful invader initialization returns exactly the invader grid. -/
lemma initGrid_invader_ok {N : ℤ} {d : ℚ} {sz : ℤ} {rng : ℕ → ℕ → Bool}
    {g : ℕ → ℕ → ℤ} (hg : initGrid N "invader" d sz rng = .ok g) :
    g = invaderGrid N sz := by
  unfold initGrid at hg
  rw [if_neg (by decide), if_neg (by decide), if_pos rfl] at hg
  split_ifs at hg
  exact (Except.ok.inj hg).symm

/-- Concrete invader engine: side 5, invader size 2 (an even size). -/
def invaderEngine52 : StrategicAutomaton :=
  ⟨5, "prisoner_clusters", pdPayoffs, invaderGrid 5 2⟩

/-- Counterexample to C6 as stated: constructing with N = 5 and
invaderSize = 2 succeeds and yields 9 DEFECT cells (a 3-by-3 block), not the
2 * 2 = 4 cells a block spanning invaderSize cells in each dimension would
have; so the block does not span invaderSize cells for even sizes. -/
theorem C6_invader_counterexample :
    mkAutomaton 5 "prisoner_clusters" "invader" 0 2 rngFalse
        = .ok invaderEngine52 ∧
      defectCount invaderEngine52.grid 5 = 9 ∧
      defectCount invaderEngine52.grid 5 ≠ 2 * 2 := by
  refine ⟨rfl, by decide, by decide⟩

/-- C6 (corrected): a construction with the invader initial condition sets
the grid to COOPERATE except a square DEFECT block around
(N / 2, N / 2) spanning 2 * (invaderSize / 2) + 1 cells in each dimension
(equal to invaderSize only when invaderSize is odd), namely the cells whose
coordinates lie within invaderSize / 2 of N / 2, provided the size is
nonnegative and the block fits inside the grid. -/
theorem C6_invader_block (N : ℤ) (gt : String) (d : ℚ) (sz : ℤ)
    (rng : ℕ → ℕ → Bool) (e : StrategicAutomaton)
    (hmk : mkAutomaton N gt "invader" d sz rng = .ok e)
    (hsz : 0 ≤ sz) (hlo : 0 ≤ N / 2 - sz / 2) (hhi : N / 2 + sz / 2 < N)
    (y x : ℕ) :
    e.grid y x =
      if N / 2 - sz / 2 ≤ (y : ℤ) ∧ (y : ℤ) ≤ N / 2 + sz / 2 ∧
          N / 2 - sz / 2 ≤ (x : ℤ) ∧ (x : ℤ) ≤ N / 2 + sz / 2
      then DEFECT else COOPERATE := by
  obtain ⟨p, g, hp, hg, he⟩ := mk_ok_elim hmk
  have hgi := initGrid_invader_ok hg
  subst hgi he
  have hdiv : 0 ≤ sz / 2 := Int.ediv_nonneg hsz (by norm_num)
  have h1 : sliceNorm (N / 2 - sz / 2) N = N / 2 - sz / 2 := by
    unfold sliceNorm
    rw [if_neg (not_lt.mpr hlo), max_eq_left hlo]
    exact min_eq_left (by omega)
  have h2 : sliceNorm (N / 2 + sz / 2 + 1) N = N / 2 + sz / 2 + 1 := by
    unfold sliceNorm
    rw [if_neg (by omega), max_eq_left (by omega)]
    exact min_eq_left (by omega)
  show invaderGrid N sz y x = _
  unfold invaderGrid
  rw [h1, h2]
  by_cases hc : N / 2 - sz / 2 ≤ (y : ℤ) ∧ (y : ℤ) ≤ N / 2 + sz / 2 ∧
      N / 2 - sz / 2 ≤ (x : ℤ) ∧ (x : ℤ) ≤ N / 2 + sz / 2
  · rw [if_pos (by omega), if_pos hc]
  · rw [if_neg (by omega), if_neg hc]

/-- Concrete invader engine: side 11, invader size 3 (the spec's example). -/
def invaderEngine113 : StrategicAutomaton :=
  ⟨11, "prisoner_clusters", pdPayoffs, invaderGrid 11 3⟩

/-- Witness for the corrected C6: for N = 11 and invaderSize = 3 the block
formula applies at cell (4, 4) of the concretely constructed engine. -/
theorem C6_invader_block_witness :
    invaderEngine113.grid 4 4 =
      if (11 : ℤ) / 2 - 3 / 2 ≤ ((4 : ℕ) : ℤ) ∧ ((4 : ℕ) : ℤ) ≤ 11 / 2 + 3 / 2 ∧
          (11 : ℤ) / 2 - 3 / 2 ≤ ((4 : ℕ) : ℤ) ∧ ((4 : ℕ) : ℤ) ≤ 11 / 2 + 3 / 2
      then DEFECT else COOPERATE :=
  C6_invader_block 11 "prisoner_clusters" 0 3 rngFalse invaderEngine113 rfl
    (by decide) (by decide) (by decide) 4 4

/-- C7 (confirmed): an unrecognized game variant makes construction fail
with the invalid-game-type error raised before grid initialization is even
attempted, and an unrecognized initial-condition name also makes
construction fail; in either case no engine value is produced, so no grid
state is ever installed. -/
theorem C7_invalid_config (N : ℤ) (gt ic : String) (d : ℚ) (sz : ℤ)
    (rng : ℕ → ℕ → Bool) :
    (gt ≠ "prisoner_clusters" → gt ≠ "hawk_dove_spirals" → gt ≠ "stag_hunt" →
      mkAutomaton N gt ic d sz rng = .error ("Invalid game type: " ++ gt)) ∧
    (ic ≠ "random" → ic ≠ "split" → ic ≠ "invader" → ic ≠ "clusters" →
      isOkB (mkAutomaton N gt ic d sz rng) = false) := by
  constructor
  · intro h1 h2 h3
    unfold mkAutomaton getPayoffs
    rw [if_neg h1, if_neg h2, if_neg h3]
  · intro h1 h2 h3 h4
    unfold mkAutomaton
    cases hp : getPayoffs gt with
    | error msg => rfl
    | ok p =>
      unfold initGrid
      rw [if_neg h1, if_neg h2, if_neg h3, if_neg h4]
      rfl

/-- Witness for C7: an unknown game type and an unknown initial condition
are both rejected. -/
theorem C7_invalid_config_witness :
    mkAutomaton 5 "foo" "split" 0 5 rngFalse
        = .error ("Invalid game type: " ++ "foo") ∧
      isOkB (mkAutomaton 5 "stag_hunt" "bar" 0 5 rngFalse) = false :=
  ⟨(C7_invalid_config 5 "foo" "split" 0 5 rngFalse).1
      (by decide) (by decide) (by decide),
   (C7_invalid_config 5 "stag_hunt" "bar" 0 5 rngFalse).2
      (by decide) (by decide) (by decide) (by decide)⟩

/-- The engine the code actually builds for grid size 0 with the split
initial condition: construction does not fail. -/
def zeroSplitEngine : StrategicAutomaton :=
  ⟨0, "prisoner_clusters", pdPayoffs, splitGrid 0⟩

/-- Counterexample to C8 as stated: grid side length 0 is non-positive, yet
construction succeeds (numpy happily allocates 0-by-0 arrays and nothing in
__init__ validates grid_size), producing an engine instead of failing. -/
theorem C8_counterexample :
    mkAutomaton 0 "prisoner_clusters" "split" (1 / 2) 5 rngFalse
        = .ok zeroSplitEngine ∧
      isOkB (mkAutomaton 0 "prisoner_clusters" "split" (1 / 2) 5 rngFalse)
        = true :=
  ⟨rfl, rfl⟩

/-- C8 (corrected): a density outside [0, 1] with the random initial
condition makes construction fail (numpy rejects the probability vector),
and a negative grid side length makes construction fail (numpy rejects
negative dimensions); but grid side 0 is accepted, so only negative — not
all non-positive — sizes are rejected. -/
theorem C8_param_rejection (N : ℤ) (gt ic : String) (d : ℚ) (sz : ℤ)
    (rng : ℕ → ℕ → Bool) :
    (ic = "random" → (d < 0 ∨ 1 < d) →
      isOkB (mkAutomaton N gt ic d sz rng) = false) ∧
    (N < 0 → isOkB (mkAutomaton N gt ic d sz rng) = false) := by
  constructor
  · intro hic hd
    subst hic
    unfold mkAutomaton
    cases hp : getPayoffs gt with
    | error msg => rfl
    | ok p =>
      unfold initGrid
      rw [if_pos rfl]
      by_cases hN : N < 0
      · rw [if_pos hN]
        rfl
      · rw [if_neg hN, if_neg ?_]
        · rfl
        · rintro ⟨ha, hb⟩
          rcases hd with hd | hd
          · exact absurd ha (not_le.mpr hd)
          · exact absurd hb (not_le.mpr hd)
  · intro hN
    unfold mkAutomaton
    cases hp : getPayoffs gt with
    | error msg => rfl
    | ok p =>
      unfold initGrid
      split_ifs <;> rfl

/-- Witness for the corrected C8: density 2 with random init is rejected,
and grid side -3 is rejected. -/
theorem C8_param_rejection_witness :
    isOkB (mkAutomaton 7 "prisoner_clusters" "random" 2 5 rngFalse) = false ∧
      isOkB (mkAutomaton (-3) "prisoner_clusters" "split" 0 5 rngFalse)
        = false :=
  ⟨(C8_param_rejection 7 "prisoner_clusters" "random" 2 5 rngFalse).1 rfl
      (Or.inr (by norm_num)),
   (C8_param_rejection (-3) "prisoner_clusters" "split" 0 5 rngFalse).2
      (by decide)⟩

/-- C9 (confirmed): construction plus stepping is deterministic — two
engines constructed from identical configurations (same size, variant,
condition, parameters and, for random init, the same random stream, i.e. a
fixed seed) have bit-identical grids after every number of generations. -/
theorem C9_determinism (N : ℤ) (gt ic : String) (d : ℚ) (sz : ℤ)
    (rng : ℕ → ℕ → Bool) (e1 e2 : StrategicAutomaton)
    (h1 : mkAutomaton N gt ic d sz rng = .ok e1)
    (h2 : mkAutomaton N gt ic d sz rng = .ok e2) (k y x : ℕ) :
    (stepK k e1).grid y x = (stepK k e2).grid y x := by
  have h := h1.symm.trans h2
  injection h with h
  rw [h]

/-- Witness for C9: two identically configured side-2 constructions agree
after 3 generations at cell (0, 0). -/
theorem C9_determinism_witness :
    (stepK 3 splitEngine2).grid 0 0 = (stepK 3 splitEngine2).grid 0 0 :=
  C9_determinism 2 "prisoner_clusters" "split" 0 5 rngFalse
    splitEngine2 splitEngine2 rfl rfl 3 0 0

/-- A side-1 engine over a concrete grid. -/
def oneEngine : StrategicAutomaton := ⟨1, "prisoner_clusters", pdPayoffs, splitGrid 1⟩

/-- C10 (confirmed): on a side-1 grid all 8 neighbor offsets wrap to the
cell itself, so the fitness of the unique cell is 8 times the payoff of its
strategy against itself; on a side-2 grid offsets -1 and +1 wrap to the same
line, so cell (0,0) counts neighbor (1,1) four times and neighbors (1,0) and
(0,1) twice each; and construction still succeeds at sizes 1 and 2 (stepping
is a total operation in the model, so advance() succeeds as well). -/
theorem C10_small_grid_aliasing (a : StrategicAutomaton) (g : ℕ → ℕ → ℤ)
    (rng : ℕ → ℕ → Bool) :
    (a.grid_size = 1 →
      getFitness a 0 0 g
        = 8 * interactionPayoff a.game_type a.payoffs (g 0 0) (g 0 0)) ∧
    (a.grid_size = 2 →
      getFitness a 0 0 g
        = 4 * interactionPayoff a.game_type a.payoffs (g 0 0) (g 1 1)
        + 2 * interactionPayoff a.game_type a.payoffs (g 0 0) (g 1 0)
        + 2 * interactionPayoff a.game_type a.payoffs (g 0 0) (g 0 1)) ∧
    isOkB (mkAutomaton 1 "prisoner_clusters" "split" 0 5 rng) = true ∧
    isOkB (mkAutomaton 2 "stag_hunt" "random" 1 5 rng) = true := by
  refine ⟨?_, ?_, rfl, rfl⟩
  · intro h1
    have hw : ∀ (i : ℕ) (dd : ℤ), wrapIdx a.grid_size i dd = wrapIdx 1 i dd := by
      intro i dd; rw [h1]
    simp only [getFitness, offsetList, List.foldl_cons, List.foldl_nil, hw]
    norm_num [wrapIdx]
    ring
  · intro h2
    have hw : ∀ (i : ℕ) (dd : ℤ), wrapIdx a.grid_size i dd = wrapIdx 2 i dd := by
      intro i dd; rw [h2]
    simp only [getFitness, offsetList, List.foldl_cons, List.foldl_nil, hw]
    norm_num [wrapIdx]
    ring

/-- Witness for C10: the aliasing identities on concrete side-1 and side-2
engines and grids. -/
theorem C10_small_grid_aliasing_witness :
    getFitness oneEngine 0 0 (splitGrid 1)
        = 8 * interactionPayoff oneEngine.game_type oneEngine.payoffs
            (splitGrid 1 0 0) (splitGrid 1 0 0) ∧
      getFitness splitEngine2 0 0 (splitGrid 2)
        = 4 * interactionPayoff splitEngine2.game_type splitEngine2.payoffs
            (splitGrid 2 0 0) (splitGrid 2 1 1)
        + 2 * interactionPayoff splitEngine2.game_type splitEngine2.payoffs
            (splitGrid 2 0 0) (splitGrid 2 1 0)
        + 2 * interactionPayoff splitEngine2.game_type splitEngine2.payoffs
            (splitGrid 2 0 0) (splitGrid 2 0 1) :=
  ⟨(C10_small_grid_aliasing oneEngine (splitGrid 1) rngFalse).1 rfl,
   (C10_small_grid_aliasing splitEngine2 (splitGrid 2) rngFalse).2.1 rfl⟩

end StrategicField
